import Mathlib

/-!
Verification development for the attchat-gateway-websocket repository.

The Go sources under internal/room, internal/auth, internal/server and
internal/metrics are shallowly embedded as pure Lean functions.  Go maps and
sync.Map values are modelled as association lists over String keys; Go
channels of capacity 256 are modelled as bounded lists; pointer-shared
Connection objects are modelled by indexing the single authoritative
connection store by conn_id.  Times are abstracted to Nat tick parameters,
and log statements are dropped (they have no observable effect on state).
-/

namespace AttChat

/-- Lookup in an association list, mirroring a read on a Go map or sync.Map
keyed by strings. -/
def alookup {α : Type} : List (String × α) → String → Option α
  | [], _ => none
  | (k', v) :: t, k => if k' = k then some v else alookup t k

/-- Store into an association list: overwrite the first binding of the key in
place, append a new binding when the key is absent.  Mirrors sync.Map.Store /
map assignment. -/
def astore {α : Type} : List (String × α) → String → α → List (String × α)
  | [], k, v => [(k, v)]
  | (k', v') :: t, k, v => if k' = k then (k, v) :: t else (k', v') :: astore t k v

/-- Delete from an association list: drop every binding of the key.  Mirrors
sync.Map.Delete / the delete builtin. -/
def adelete {α : Type} : List (String × α) → String → List (String × α)
  | [], _ => []
  | (k', v) :: t, k => if k' = k then adelete t k else (k', v) :: adelete t k

theorem alookup_astore_self {α : Type} (l : List (String × α)) (k : String) (v : α) :
    alookup (astore l k v) k = some v := by
  induction l with
  | nil => simp [astore, alookup]
  | cons p t ih =>
    obtain ⟨k', v'⟩ := p
    by_cases h : k' = k
    · simp [astore, h, alookup]
    · simp [astore, h, alookup, ih]

theorem alookup_astore_ne {α : Type} (l : List (String × α)) {k k' : String} (v : α)
    (h : k' ≠ k) : alookup (astore l k v) k' = alookup l k' := by
  have hk : ¬k = k' := fun hh => h hh.symm
  induction l with
  | nil => simp [astore, alookup, hk]
  | cons p t ih =>
    obtain ⟨k₀, v₀⟩ := p
    by_cases h0 : k₀ = k
    · subst h0
      simp [astore, alookup, hk]
    · simp [astore, h0, alookup, ih]

theorem alookup_adelete_self {α : Type} (l : List (String × α)) (k : String) :
    alookup (adelete l k) k = none := by
  induction l with
  | nil => simp [adelete, alookup]
  | cons p t ih =>
    obtain ⟨k₀, v₀⟩ := p
    by_cases h0 : k₀ = k
    · simpa [adelete, h0] using ih
    · simpa [adelete, h0, alookup] using ih

theorem alookup_adelete_ne {α : Type} (l : List (String × α)) {k k' : String}
    (h : k' ≠ k) : alookup (adelete l k) k' = alookup l k' := by
  have hk : ¬k = k' := fun hh => h hh.symm
  induction l with
  | nil => simp [adelete, alookup]
  | cons p t ih =>
    obtain ⟨k₀, v₀⟩ := p
    by_cases h0 : k₀ = k
    · subst h0
      simpa [adelete, alookup, hk] using ih
    · simp [adelete, h0, alookup, ih]

theorem adelete_astore {α : Type} (l : List (String × α)) (k : String) (v : α)
    (h : alookup l k = none) : adelete (astore l k v) k = l := by
  induction l with
  | nil => simp [astore, adelete]
  | cons p t ih =>
    obtain ⟨k₀, v₀⟩ := p
    by_cases h0 : k₀ = k
    · simp [alookup, h0] at h
    · simp [alookup, h0] at h
      simp [astore, h0, adelete, ih h]

theorem astore_self {α : Type} (l : List (String × α)) (k : String) (v : α)
    (h : alookup l k = some v) : astore l k v = l := by
  induction l with
  | nil => simp [alookup] at h
  | cons p t ih =>
    obtain ⟨k₀, v₀⟩ := p
    by_cases h0 : k₀ = k
    · simp [alookup, h0] at h
      simp [astore, h0, h]
    · simp [alookup, h0] at h
      simp [astore, h0, ih h]

theorem astore_astore {α : Type} (l : List (String × α)) (k : String) (v w : α) :
    astore (astore l k v) k w = astore l k w := by
  induction l with
  | nil => simp [astore]
  | cons p t ih =>
    obtain ⟨k₀, v₀⟩ := p
    by_cases h0 : k₀ = k
    · simp [astore, h0]
    · simp [astore, h0, ih]

theorem alookup_astore_isSome {α : Type} (l : List (String × α)) {k : String} (v w : α)
    (h : alookup l k = some w) (k' : String) :
    (alookup (astore l k v) k').isSome = (alookup l k').isSome := by
  by_cases hk : k' = k
  · subst hk
    simp [alookup_astore_self, h]
  · simp [alookup_astore_ne _ _ hk]

/-! ## Frames

Outbound frames are serialized JSON byte slices in Go.  We model them as an
inductive carrying the information the server writes into each JSON shape
(server.go handleClientMessage and the typing ServerMessage construction). -/

/-- Outbound frame payloads built by the gateway.  `typing room userID utype ts`
models the serialized ServerMessage of shape
type "typing", room, payload of user_id and type, timestamp. -/
inductive Frame where
  | pong (ts : Nat)
  | joined (room : String)
  | leftRoom (room : String)
  | typing (room userID utype : String) (ts : Nat)
  | raw (payload : String)
  deriving DecidableEq, Repr

/-! ## Connection (internal/room/connection.go) -/

/-- Capacity of the outbound queue: `send: make(chan []byte, 256)` in
NewConnection. -/
def sendCapacity : Nat := 256

/-- Connection models room.Connection.  The Go `Rooms map[string]bool` is a
set; we model it as a duplicate-free list inserted in program order.  The Go
buffered channel `send chan []byte` is the bounded list `sendq`.  CreatedAt
and LastPing are not observable by any claim and are omitted. -/
structure Conn where
  id : String
  userID : String
  brandID : String
  role : String
  utype : String
  device : String
  tags : String
  timezone : String
  channel : String
  rooms : List String
  closed : Bool
  sendq : List Frame
  deriving DecidableEq, Repr

/-- Connection.JoinRoom: `c.Rooms[roomID] = true` (map insert, idempotent). -/
def Conn.joinRoom (c : Conn) (r : String) : Conn :=
  if r ∈ c.rooms then c else { c with rooms := c.rooms ++ [r] }

/-- Connection.LeaveRoom: `delete(c.Rooms, roomID)`. -/
def Conn.leaveRoom (c : Conn) (r : String) : Conn :=
  { c with rooms := c.rooms.erase r }

/-- Connection.Send: return nil immediately when closed; otherwise a
non-blocking channel send — enqueue when the buffer has room, drop (with only
a log warning) when it is full.  The Go return value is `error`, and every
path returns nil; we return the error alongside the updated connection. -/
def Conn.send (c : Conn) (f : Frame) : Conn × Option String :=
  if c.closed then (c, none)
  else if c.sendq.length < sendCapacity then ({ c with sendq := c.sendq ++ [f] }, none)
  else (c, none)

/-- Connection.Close: set the closed latch once; the channel close only
signals the writer and leaves buffered frames readable, so `sendq` is kept. -/
def Conn.close (c : Conn) : Conn :=
  if c.closed then c else { c with closed := true }

/-- Connection.IsInRoom. -/
def Conn.isInRoom (c : Conn) (r : String) : Bool :=
  r ∈ c.rooms

theorem Conn.mem_joinRoom (c : Conn) (r x : String) :
    x ∈ (c.joinRoom r).rooms ↔ x = r ∨ x ∈ c.rooms := by
  unfold Conn.joinRoom
  by_cases h : r ∈ c.rooms
  · simp only [h, if_true]
    constructor
    · exact Or.inr
    · rintro (rfl | hx)
      · exact h
      · exact hx
  · simp [h, List.mem_append, or_comm]

/-- joinDefaultRooms (connection.go): user room always, brand room when the
brand is non-empty, and the three folder rooms for cskh connections. -/
def joinDefaultRooms (c : Conn) : Conn :=
  let c1 := c.joinRoom ("user:" ++ c.userID)
  let c2 := if c.brandID ≠ "" then c1.joinRoom ("brand:" ++ c.brandID) else c1
  if c.utype = "cskh" then
    ((c2.joinRoom ("folder:" ++ c.brandID ++ ":all")).joinRoom
        ("folder:" ++ c.brandID ++ ":waiting")).joinRoom
      ("folder:" ++ c.brandID ++ ":active")
  else c2

/-- NewConnection: fresh connection with empty queue, then joinDefaultRooms. -/
def newConnection (id uid bid role ty : String) : Conn :=
  joinDefaultRooms
    { id := id, userID := uid, brandID := bid, role := role, utype := ty
      device := "", tags := "", timezone := "", channel := ""
      rooms := [], closed := false, sendq := [] }

/-! ## Metrics (internal/metrics/metrics.go)

The package-level Prometheus collectors.  Counters and gauges are both
modelled as integers.  The histogram MessageLatency records timings only and
is not modelled.  Note metrics.go defines no slow-consumer collector. -/

/-- Metrics models the promauto collectors declared in metrics.go. -/
structure Metrics where
  connectionsTotal : Int
  connectionsCurrent : Int
  roomsTotal : Int
  messagesReceived : Int
  messagesSent : Int
  messagesFromNATS : Int
  authSuccess : Int
  authFailure : Int
  deriving DecidableEq, Repr

/-! ## Manager (internal/room/manager.go)

The three sync.Map fields become association lists.  Room buckets and user
buckets hold conn_ids; in Go they hold *Connection pointers whose single
authoritative object is also stored in `conns`, so an id-indexed model is
faithful whenever every bucket member is a registered id (true in all
sequentially reachable states). -/

/-- MgrState models room.Manager together with the package metrics the
manager updates. -/
structure MgrState where
  totalConnections : Int
  totalRooms : Int
  conns : List (String × Conn)
  rooms : List (String × List String)
  users : List (String × List String)
  metrics : Metrics
  deriving DecidableEq, Repr

/-- Insert a conn_id into a bucket: sync.Map.Store keyed by the id (a set
insert). -/
def bucketAdd (b : List String) (cid : String) : List String :=
  if cid ∈ b then b else b ++ [cid]

/-- Manager.addToRoom: LoadOrStore the bucket, Store the connection, bump the
rooms gauge when the bucket was created. -/
def addToRoom (s : MgrState) (roomID cid : String) : MgrState :=
  match alookup s.rooms roomID with
  | some b => { s with rooms := astore s.rooms roomID (bucketAdd b cid) }
  | none =>
      { s with rooms := astore s.rooms roomID [cid]
               totalRooms := s.totalRooms + 1
               metrics := { s.metrics with roomsTotal := s.metrics.roomsTotal + 1 } }

/-- Manager.removeFromRoom: delete the member, then delete the room and
decrement the gauge if the bucket became empty. -/
def removeFromRoom (s : MgrState) (roomID cid : String) : MgrState :=
  match alookup s.rooms roomID with
  | none => s
  | some b =>
      if (b.erase cid).isEmpty then
        { s with rooms := adelete s.rooms roomID
                 totalRooms := s.totalRooms - 1
                 metrics := { s.metrics with roomsTotal := s.metrics.roomsTotal - 1 } }
      else { s with rooms := astore s.rooms roomID (b.erase cid) }

/-- Manager.AddConnection: register in conns, in the user's bucket
(LoadOrStore), and in every room of conn.Rooms; bump connection counters. -/
def addConnection (s : MgrState) (c : Conn) : MgrState :=
  let s1 := { s with conns := astore s.conns c.id c }
  let s2 :=
    match alookup s1.users c.userID with
    | some b => { s1 with users := astore s1.users c.userID (bucketAdd b c.id) }
    | none => { s1 with users := astore s1.users c.userID [c.id] }
  let s3 := c.rooms.foldl (fun st r => addToRoom st r c.id) s2
  { s3 with totalConnections := s3.totalConnections + 1
            metrics := { s3.metrics with
              connectionsTotal := s3.metrics.connectionsTotal + 1
              connectionsCurrent := s3.metrics.connectionsCurrent + 1 } }

/-- Manager.RemoveConnection: no-op for an unknown id; otherwise remove the
connection from every room of conn.Rooms, from the user's bucket (the bucket
itself is never deleted), and from conns; close the connection (the closed
object leaves the maps, so only the maps change here); decrement the current
connections gauge. -/
def removeConnection (s : MgrState) (cid : String) : MgrState :=
  match alookup s.conns cid with
  | none => s
  | some c =>
      let s1 := c.rooms.foldl (fun st r => removeFromRoom st r cid) s
      let s2 :=
        match alookup s1.users c.userID with
        | some b => { s1 with users := astore s1.users c.userID (b.erase cid) }
        | none => s1
      let s3 := { s2 with conns := adelete s2.conns cid }
      { s3 with metrics := { s3.metrics with
          connectionsCurrent := s3.metrics.connectionsCurrent - 1 } }

/-- Manager.JoinRoom: look the connection up; when present, mutate its room
set (the shared object stored in conns) and add it to the room bucket. -/
def joinRoomM (s : MgrState) (cid roomID : String) : MgrState :=
  match alookup s.conns cid with
  | none => s
  | some c =>
      addToRoom { s with conns := astore s.conns cid (c.joinRoom roomID) } roomID cid

/-- Manager.LeaveRoom: dual of JoinRoom. -/
def leaveRoomM (s : MgrState) (cid roomID : String) : MgrState :=
  match alookup s.conns cid with
  | none => s
  | some c =>
      removeFromRoom { s with conns := astore s.conns cid (c.leaveRoom roomID) } roomID cid

/-- One iteration of the broadcast Range loop: skip the excluded id, send to
the member's connection (Send never returns a non-nil error, so every
performed send is counted). -/
def sendStep (ex : String) (f : Frame) (acc : List (String × Conn) × Nat) (cid : String) :
    List (String × Conn) × Nat :=
  if cid = ex then acc
  else
    match alookup acc.1 cid with
    | none => acc
    | some c =>
        let r := c.send f
        (astore acc.1 cid r.1, if r.2 = none then acc.2 + 1 else acc.2)

/-- Manager.BroadcastToRoom: iterate the room bucket, send to every member
except the excluded one, add the count to the messages-sent counter and
return it. -/
def broadcastToRoom (s : MgrState) (roomID : String) (f : Frame) (ex : String) :
    MgrState × Nat :=
  match alookup s.rooms roomID with
  | none => (s, 0)
  | some bucket =>
      let r := bucket.foldl (sendStep ex f) (s.conns, 0)
      ({ s with conns := r.1
                metrics := { s.metrics with
                  messagesSent := s.metrics.messagesSent + Int.ofNat r.2 } }, r.2)

/-- Manager.GetUserConnections: every connection registered under the user. -/
def getUserConnIDs (s : MgrState) (userID : String) : List String :=
  (alookup s.users userID).getD []

/-- Manager.BroadcastToUser: same loop over the user's connections; this one
does not touch the messages-sent counter (the Go code does not either). -/
def broadcastToUser (s : MgrState) (userID : String) (f : Frame) (ex : String) :
    MgrState × Nat :=
  let r := (getUserConnIDs s userID).foldl (sendStep ex f) (s.conns, 0)
  ({ s with conns := r.1 }, r.2)

/-! ## JWT validation (internal/auth/jwt.go, RSA form)

A token is abstracted to its signing-algorithm family, whether its signature
verifies against the validator's RSA public key, and its claims.  Expiry is a
comparison of ExpiresAt with the wall clock at validation time; we carry the
outcome as the Boolean `expired` (with `hasExp` for a present ExpiresAt).
jwt.ParseWithClaims rejects, in order: a non-RSA signing method (the keyfunc
error, wrapped as ErrInvalidToken by the caller), an invalid signature
(ErrInvalidToken), and an expired exp claim (ErrTokenExpired, mapped to
ErrExpiredToken). -/

/-- Signing algorithm family carried in the token header. -/
inductive SigAlg where
  | rsa
  | hmac
  | noAlg
  deriving DecidableEq, Repr

/-- Claims models auth.Claims (RSA/uint form) plus the registered claims the
validator reads. -/
structure Claims where
  userID : Nat
  username : String
  roleID : Nat
  tokenVersion : Int
  brandID : String
  role : String
  croomsList : List String
  utype : String
  issuer : String
  hasExp : Bool
  expired : Bool
  deriving DecidableEq, Repr

/-- Token models a parsed JWT as the validator observes it. -/
structure Token where
  alg : SigAlg
  sigValid : Bool
  claims : Claims
  deriving DecidableEq, Repr

/-- Typed failures of JWTValidator.Validate (the var block of jwt.go). -/
inductive AuthError where
  | invalidToken
  | expiredToken
  | invalidClaims
  | missingUserID
  deriving DecidableEq, Repr

/-- JWTValidator configuration relevant to Validate. -/
structure JWTValidator where
  validateExp : Bool
  allowedIssuers : List String
  deriving DecidableEq, Repr

/-- JWTValidator.Validate: parse (alg family, signature, default exp
validation), then the explicit user_id, expiration and issuer checks. -/
def validate (v : JWTValidator) (t : Token) : Except AuthError Claims :=
  if t.alg ≠ SigAlg.rsa then Except.error AuthError.invalidToken
  else if t.sigValid = false then Except.error AuthError.invalidToken
  else if t.claims.hasExp && t.claims.expired then Except.error AuthError.expiredToken
  else if t.claims.userID = 0 then Except.error AuthError.missingUserID
  else if v.validateExp && t.claims.hasExp && t.claims.expired then
    Except.error AuthError.expiredToken
  else if !v.allowedIssuers.isEmpty && !v.allowedIssuers.contains t.claims.issuer then
    Except.error AuthError.invalidClaims
  else Except.ok t.claims

/-! ## Server (internal/server/server.go) -/

/-- ClientMessage: the JSON frame read from the client. -/
structure ClientMessage where
  ctype : String
  room : String
  payload : String
  deriving DecidableEq, Repr

/-- NatsEvent models the nats.Event envelope published for non-control
frames. -/
structure NatsEvent where
  etype : String
  room : String
  userID : String
  brandID : String
  payload : String
  excludeConnID : String
  ts : Nat
  deriving DecidableEq, Repr

/-- Enqueue a frame on the sender's own connection (conn.Send on the pointer
handleClientMessage received; for a registered sender that pointer is the
object stored in the manager, so the store is updated in place). -/
def senderEnqueue (s : MgrState) (senderID : String) (f : Frame) : MgrState :=
  match alookup s.conns senderID with
  | some c => { s with conns := astore s.conns senderID (c.send f).1 }
  | none => s

/-- Server.handleClientMessage: dispatch on the frame type; returns the new
state and the list of subject-event pairs published to the bus. -/
def handleClientMessage (s : MgrState) (sender : Conn) (msg : ClientMessage) (now : Nat) :
    MgrState × List (String × NatsEvent) :=
  if msg.ctype = "ping" then
    (senderEnqueue s sender.id (Frame.pong now), [])
  else if msg.ctype = "join" then
    if msg.room ≠ "" then
      (senderEnqueue (joinRoomM s sender.id msg.room) sender.id (Frame.joined msg.room), [])
    else (s, [])
  else if msg.ctype = "leave" then
    if msg.room ≠ "" then
      (senderEnqueue (leaveRoomM s sender.id msg.room) sender.id
        (Frame.leftRoom msg.room), [])
    else (s, [])
  else if msg.ctype = "typing" then
    if msg.room ≠ "" then
      ((broadcastToRoom s msg.room (Frame.typing msg.room sender.userID sender.utype now)
          sender.id).1, [])
    else (s, [])
  else
    (s, [("CHAT.events",
      { etype := msg.ctype, room := msg.room, userID := sender.userID
        brandID := sender.brandID, payload := msg.payload
        excludeConnID := sender.id, ts := now })])

/-- Identity resolution in handleWebSocket: a non-zero claims user_id
overrides the query value and is rendered in decimal. -/
def resolvedUserID (c : Claims) (q : String) : String :=
  if c.userID ≠ 0 then toString c.userID else q

/-- Identity resolution for brand_id: claims override the query when
non-empty. -/
def resolvedBrandID (c : Claims) (q : String) : String :=
  if c.brandID ≠ "" then c.brandID else q

/-- Identity resolution for role. -/
def resolvedRole (c : Claims) (q : String) : String :=
  if c.role ≠ "" then c.role else q

/-- Identity resolution for user_type. -/
def resolvedUserType (c : Claims) (q : String) : String :=
  if c.utype ≠ "" then c.utype else q

/-- The attach sequence of handleWebSocket after successful validation:
resolve identity, build the connection (auto-joining default rooms), add it
to the manager, join the upgrade-time room_id when non-empty, then join every
room listed in the claims. -/
def attach (s : MgrState) (connID : String) (claims : Claims)
    (qUserID qBrandID qRole qUserType roomID : String) : MgrState :=
  let conn := newConnection connID (resolvedUserID claims qUserID)
    (resolvedBrandID claims qBrandID) (resolvedRole claims qRole)
    (resolvedUserType claims qUserType)
  let s1 := addConnection s conn
  let s2 := if roomID ≠ "" then joinRoomM s1 connID roomID else s1
  claims.croomsList.foldl (fun st r => joinRoomM st connID r) s2

/-! ## Pointwise characterizations of the manager operations -/

/-- Effect of removeFromRoom on the bucket stored under the touched room. -/
def bucketRemove (ob : Option (List String)) (cid : String) : Option (List String) :=
  match ob with
  | none => none
  | some b => if (b.erase cid).isEmpty then none else some (b.erase cid)

theorem addToRoom_conns (s : MgrState) (roomID cid : String) :
    (addToRoom s roomID cid).conns = s.conns := by
  unfold addToRoom
  cases alookup s.rooms roomID <;> rfl

theorem addToRoom_users (s : MgrState) (roomID cid : String) :
    (addToRoom s roomID cid).users = s.users := by
  unfold addToRoom
  cases alookup s.rooms roomID <;> rfl

theorem removeFromRoom_conns (s : MgrState) (roomID cid : String) :
    (removeFromRoom s roomID cid).conns = s.conns := by
  unfold removeFromRoom
  cases alookup s.rooms roomID with
  | none => rfl
  | some b =>
    by_cases h : (b.erase cid).isEmpty <;> simp [h]

theorem removeFromRoom_users (s : MgrState) (roomID cid : String) :
    (removeFromRoom s roomID cid).users = s.users := by
  unfold removeFromRoom
  cases alookup s.rooms roomID with
  | none => rfl
  | some b =>
    by_cases h : (b.erase cid).isEmpty <;> simp [h]

theorem addToRoom_rooms_lookup (s : MgrState) (roomID cid r : String) :
    alookup (addToRoom s roomID cid).rooms r =
      if r = roomID then some (bucketAdd ((alookup s.rooms roomID).getD []) cid)
      else alookup s.rooms r := by
  unfold addToRoom
  by_cases hr : r = roomID
  · subst hr
    cases h : alookup s.rooms r with
    | none => simp [h, alookup_astore_self, bucketAdd]
    | some b => simp [h, alookup_astore_self]
  · cases h : alookup s.rooms roomID with
    | none => simp [hr, alookup_astore_ne _ _ hr]
    | some b => simp [hr, alookup_astore_ne _ _ hr]

theorem removeFromRoom_rooms_lookup (s : MgrState) (roomID cid r : String) :
    alookup (removeFromRoom s roomID cid).rooms r =
      if r = roomID then bucketRemove (alookup s.rooms roomID) cid
      else alookup s.rooms r := by
  unfold removeFromRoom
  by_cases hr : r = roomID
  · subst hr
    cases h : alookup s.rooms r with
    | none => simp [h, bucketRemove]
    | some b =>
      by_cases he : (b.erase cid).isEmpty
      · simp [h, he, bucketRemove, alookup_adelete_self]
      · simp [h, he, bucketRemove, alookup_astore_self]
  · cases h : alookup s.rooms roomID with
    | none => simp [hr]
    | some b =>
      by_cases he : (b.erase cid).isEmpty
      · simp [h, he, hr, alookup_adelete_ne _ hr]
      · simp [h, he, hr, alookup_astore_ne _ _ hr]

theorem foldl_addToRoom_conns (l : List String) (s : MgrState) (cid : String) :
    (l.foldl (fun st x => addToRoom st x cid) s).conns = s.conns := by
  induction l generalizing s with
  | nil => rfl
  | cons a t ih => simp [List.foldl_cons, ih, addToRoom_conns]

theorem foldl_addToRoom_users (l : List String) (s : MgrState) (cid : String) :
    (l.foldl (fun st x => addToRoom st x cid) s).users = s.users := by
  induction l generalizing s with
  | nil => rfl
  | cons a t ih => simp [List.foldl_cons, ih, addToRoom_users]

theorem foldl_removeFromRoom_conns (l : List String) (s : MgrState) (cid : String) :
    (l.foldl (fun st x => removeFromRoom st x cid) s).conns = s.conns := by
  induction l generalizing s with
  | nil => rfl
  | cons a t ih => simp [List.foldl_cons, ih, removeFromRoom_conns]

theorem foldl_removeFromRoom_users (l : List String) (s : MgrState) (cid : String) :
    (l.foldl (fun st x => removeFromRoom st x cid) s).users = s.users := by
  induction l generalizing s with
  | nil => rfl
  | cons a t ih => simp [List.foldl_cons, ih, removeFromRoom_users]

theorem foldl_addToRoom_rooms_lookup (l : List String) (hnd : l.Nodup) (s : MgrState)
    (cid r : String) :
    alookup (l.foldl (fun st x => addToRoom st x cid) s).rooms r =
      if r ∈ l then some (bucketAdd ((alookup s.rooms r).getD []) cid)
      else alookup s.rooms r := by
  induction l generalizing s with
  | nil => simp
  | cons a t ih =>
    obtain ⟨ha, hnd'⟩ := List.nodup_cons.mp hnd
    rw [List.foldl_cons, ih hnd']
    by_cases hmem : r ∈ t
    · have hra : r ≠ a := fun hh => ha (hh ▸ hmem)
      rw [addToRoom_rooms_lookup]
      simp [hmem, hra]
    · by_cases hra : r = a
      · subst hra
        rw [addToRoom_rooms_lookup]
        simp [hmem]
      · rw [addToRoom_rooms_lookup]
        simp [hmem, hra]

theorem foldl_removeFromRoom_rooms_lookup (l : List String) (hnd : l.Nodup) (s : MgrState)
    (cid r : String) :
    alookup (l.foldl (fun st x => removeFromRoom st x cid) s).rooms r =
      if r ∈ l then bucketRemove (alookup s.rooms r) cid
      else alookup s.rooms r := by
  induction l generalizing s with
  | nil => simp
  | cons a t ih =>
    obtain ⟨ha, hnd'⟩ := List.nodup_cons.mp hnd
    rw [List.foldl_cons, ih hnd']
    by_cases hmem : r ∈ t
    · have hra : r ≠ a := fun hh => ha (hh ▸ hmem)
      rw [removeFromRoom_rooms_lookup]
      simp [hmem, hra]
    · by_cases hra : r = a
      · subst hra
        rw [removeFromRoom_rooms_lookup]
        simp [hmem]
      · rw [removeFromRoom_rooms_lookup]
        simp [hmem, hra]

theorem addConnection_conns_lookup (s : MgrState) (c : Conn) (k : String) :
    alookup (addConnection s c).conns k =
      if k = c.id then some c else alookup s.conns k := by
  unfold addConnection
  cases h3 : alookup s.users c.userID with
  | none =>
    by_cases hk : k = c.id
    · subst hk
      simp [h3, foldl_addToRoom_conns, alookup_astore_self]
    · simp [h3, foldl_addToRoom_conns, hk, alookup_astore_ne _ _ hk]
  | some b =>
    by_cases hk : k = c.id
    · subst hk
      simp [h3, foldl_addToRoom_conns, alookup_astore_self]
    · simp [h3, foldl_addToRoom_conns, hk, alookup_astore_ne _ _ hk]

theorem addConnection_users_lookup (s : MgrState) (c : Conn) (u : String) :
    alookup (addConnection s c).users u =
      if u = c.userID then some (bucketAdd ((alookup s.users c.userID).getD []) c.id)
      else alookup s.users u := by
  unfold addConnection
  by_cases hu : u = c.userID
  · subst hu
    cases h3 : alookup s.users c.userID with
    | none => simp [h3, foldl_addToRoom_users, alookup_astore_self, bucketAdd]
    | some b => simp [h3, foldl_addToRoom_users, alookup_astore_self]
  · cases h3 : alookup s.users c.userID <;>
      simp [h3, foldl_addToRoom_users, hu, alookup_astore_ne _ _ hu]

theorem addConnection_rooms_lookup (s : MgrState) (c : Conn) (hnd : c.rooms.Nodup)
    (r : String) :
    alookup (addConnection s c).rooms r =
      if r ∈ c.rooms then some (bucketAdd ((alookup s.rooms r).getD []) c.id)
      else alookup s.rooms r := by
  unfold addConnection
  cases h3 : alookup s.users c.userID <;>
    simp [h3, foldl_addToRoom_rooms_lookup _ hnd]

/-! ## Characterization of the broadcast loop -/

theorem Conn.send_snd (c : Conn) (f : Frame) : (c.send f).2 = none := by
  unfold Conn.send
  by_cases h1 : c.closed
  · simp [h1]
  · by_cases h2 : c.sendq.length < sendCapacity <;> simp [h1, h2]

theorem sendStep_isSome (ex : String) (f : Frame) (acc : List (String × Conn) × Nat)
    (cid cid' : String) :
    (alookup (sendStep ex f acc cid).1 cid').isSome = (alookup acc.1 cid').isSome := by
  unfold sendStep
  by_cases h1 : cid = ex
  · simp [h1]
  · cases h2 : alookup acc.1 cid with
    | none => simp [h1, h2]
    | some c => simp [h1, h2, alookup_astore_isSome _ _ _ h2]

theorem foldl_sendStep_count (l : List String) (cs : List (String × Conn)) (n : Nat)
    (ex : String) (f : Frame) :
    (l.foldl (sendStep ex f) (cs, n)).2 =
      n + (l.filter (fun cid => cid != ex && (alookup cs cid).isSome)).length := by
  induction l generalizing cs n with
  | nil => simp
  | cons a t ih =>
    rw [List.foldl_cons]
    by_cases h1 : a = ex
    · rw [show sendStep ex f (cs, n) a = (cs, n) by simp [sendStep, h1]]
      simp [ih, h1]
    · cases h2 : alookup cs a with
      | none =>
        rw [show sendStep ex f (cs, n) a = (cs, n) by simp [sendStep, h1, h2]]
        simp [ih, h1, h2]
      | some c =>
        rw [show sendStep ex f (cs, n) a = (astore cs a (c.send f).1, n + 1) by
          simp [sendStep, h1, h2, Conn.send_snd]]
        rw [ih]
        have hfc : t.filter (fun cid => cid != ex &&
              (alookup (astore cs a (c.send f).1) cid).isSome) =
            t.filter (fun cid => cid != ex && (alookup cs cid).isSome) := by
          apply List.filter_congr
          intro x _
          congr 1
          exact alookup_astore_isSome _ _ _ h2 x
        rw [hfc]
        have : (alookup cs a).isSome = true := by simp [h2]
        simp [h1, this, List.filter_cons]
        omega

theorem foldl_sendStep_lookup (l : List String) (hnd : l.Nodup)
    (cs : List (String × Conn)) (n : Nat) (ex : String) (f : Frame) (cid : String) :
    alookup (l.foldl (sendStep ex f) (cs, n)).1 cid =
      if cid ∈ l ∧ cid ≠ ex then (alookup cs cid).map (fun c => (c.send f).1)
      else alookup cs cid := by
  induction l generalizing cs n with
  | nil => simp
  | cons a t ih =>
    obtain ⟨ha, hnd'⟩ := List.nodup_cons.mp hnd
    rw [List.foldl_cons]
    by_cases h1 : a = ex
    · rw [show sendStep ex f (cs, n) a = (cs, n) by simp [sendStep, h1]]
      rw [ih hnd']
      by_cases hm : cid ∈ t
      · simp [hm]
      · by_cases hc : cid = a
        · subst hc
          subst h1
          simp [hm]
        · simp [hm, hc]
    · cases h2 : alookup cs a with
      | none =>
        rw [show sendStep ex f (cs, n) a = (cs, n) by simp [sendStep, h1, h2]]
        rw [ih hnd']
        by_cases hm : cid ∈ t
        · simp [hm]
        · by_cases hc : cid = a
          · subst hc
            simp [hm, h1, h2]
          · simp [hm, hc]
      | some c =>
        rw [show sendStep ex f (cs, n) a = (astore cs a (c.send f).1, n + 1) by
          simp [sendStep, h1, h2, Conn.send_snd]]
        rw [ih hnd']
        by_cases hc : cid = a
        · subst hc
          have hm : cid ∉ t := ha
          simp [hm, h1, h2, alookup_astore_self]
        · rw [alookup_astore_ne _ _ hc]
          by_cases hm : cid ∈ t
          · simp [hm, hc]
          · simp [hm, hc]

theorem broadcastToRoom_rooms (s : MgrState) (roomID : String) (f : Frame) (ex : String) :
    (broadcastToRoom s roomID f ex).1.rooms = s.rooms := by
  unfold broadcastToRoom
  cases alookup s.rooms roomID <;> rfl

theorem broadcastToRoom_users (s : MgrState) (roomID : String) (f : Frame) (ex : String) :
    (broadcastToRoom s roomID f ex).1.users = s.users := by
  unfold broadcastToRoom
  cases alookup s.rooms roomID <;> rfl

theorem broadcastToRoom_metrics (s : MgrState) (roomID : String) (f : Frame) (ex : String) :
    (broadcastToRoom s roomID f ex).1.metrics =
      { s.metrics with
        messagesSent := s.metrics.messagesSent + Int.ofNat (broadcastToRoom s roomID f ex).2 } := by
  unfold broadcastToRoom
  cases alookup s.rooms roomID with
  | none => simp
  | some b => simp

theorem broadcastToRoom_conns_isSome (s : MgrState) (roomID : String) (f : Frame)
    (ex cid : String) :
    (alookup (broadcastToRoom s roomID f ex).1.conns cid).isSome =
      (alookup s.conns cid).isSome := by
  unfold broadcastToRoom
  cases h : alookup s.rooms roomID with
  | none => simp
  | some b =>
    simp only []
    suffices hgen : ∀ (l : List String) (cs : List (String × Conn)) (n : Nat),
        (alookup (l.foldl (sendStep ex f) (cs, n)).1 cid).isSome = (alookup cs cid).isSome by
      exact hgen b s.conns 0
    intro l
    induction l with
    | nil => intro cs n; rfl
    | cons a t ih =>
      intro cs n
      rw [List.foldl_cons]
      have hstep : sendStep ex f (cs, n) a =
          ((sendStep ex f (cs, n) a).1, (sendStep ex f (cs, n) a).2) := rfl
      rw [hstep, ih]
      exact sendStep_isSome ex f (cs, n) a cid

/-! ## Claim theorems -/

/-- C5: a subsequent enqueue on a connection on which close() has been called
returns the Go nil error without panicking (Conn.send is a total function)
and leaves the outbound queue unchanged: the result state is exactly the
closed connection, the accepted no-op of the spec. -/
theorem C5_send_after_close_noop (c : Conn) (f : Frame) :
    (c.close).send f = (c.close, none) := by
  have h : (c.close).closed = true := by
    unfold Conn.close
    by_cases hc : c.closed <;> simp [hc]
  unfold Conn.send
  simp [h]

/-- C6: a token whose signature verifies under the RSA key and whose
expiration is valid is rejected with the missing-user-id failure, and no
claims are returned, whenever the user_id claim is zero (the encoding of a
missing or zero user_id). -/
theorem C6_zero_user_id_rejected (v : JWTValidator) (t : Token)
    (halg : t.alg = SigAlg.rsa) (hsig : t.sigValid = true)
    (hexp : ¬(t.claims.hasExp = true ∧ t.claims.expired = true))
    (huid : t.claims.userID = 0) :
    validate v t = Except.error AuthError.missingUserID := by
  have hb : (t.claims.hasExp && t.claims.expired) = false := by
    cases h1 : t.claims.hasExp <;> cases h2 : t.claims.expired <;> simp_all
  unfold validate
  simp [halg, hsig, hb, huid]

/-- Concrete validator used by the auth witnesses. -/
def demoValidator : JWTValidator :=
  { validateExp := true, allowedIssuers := ["attchat"] }

/-- Concrete claims with a zero user_id but otherwise valid content. -/
def demoClaimsZero : Claims :=
  { userID := 0, username := "agent1", roleID := 3, tokenVersion := 1
    brandID := "b1", role := "agent", croomsList := [], utype := "cskh"
    issuer := "attchat", hasExp := true, expired := false }

/-- Concrete RSA-signed, unexpired token carrying the zero user_id. -/
def demoTokenZero : Token :=
  { alg := SigAlg.rsa, sigValid := true, claims := demoClaimsZero }

theorem C6_zero_user_id_witness :
    demoTokenZero.alg = SigAlg.rsa ∧ demoTokenZero.sigValid = true ∧
    ¬(demoTokenZero.claims.hasExp = true ∧ demoTokenZero.claims.expired = true) ∧
    demoTokenZero.claims.userID = 0 ∧
    validate demoValidator demoTokenZero = Except.error AuthError.missingUserID :=
  ⟨rfl, rfl, by decide, rfl,
    C6_zero_user_id_rejected demoValidator demoTokenZero rfl rfl (by decide) rfl⟩

/-- C7: a token signed with an HMAC algorithm, or with alg none, is rejected
by the RSA-configured validator with the invalid-token failure — the keyfunc
refuses the signing method before any key is used — and claims are never
returned. -/
theorem C7_hmac_rejected (v : JWTValidator) (t : Token)
    (halg : t.alg = SigAlg.hmac ∨ t.alg = SigAlg.noAlg) :
    validate v t = Except.error AuthError.invalidToken ∧
    ∀ c : Claims, validate v t ≠ Except.ok c := by
  have hne : t.alg ≠ SigAlg.rsa := by
    rcases halg with h | h <;> simp [h]
  constructor
  · unfold validate
    simp [hne]
  · intro c hc
    unfold validate at hc
    simp [hne] at hc

/-- Concrete HMAC token with otherwise perfectly valid claims. -/
def demoTokenHmac : Token :=
  { alg := SigAlg.hmac, sigValid := true
    claims := { demoClaimsZero with userID := 42 } }

theorem C7_hmac_rejected_witness :
    (demoTokenHmac.alg = SigAlg.hmac ∨ demoTokenHmac.alg = SigAlg.noAlg) ∧
    (validate demoValidator demoTokenHmac = Except.error AuthError.invalidToken ∧
      ∀ c : Claims, validate demoValidator demoTokenHmac ≠ Except.ok c) :=
  ⟨Or.inl rfl, C7_hmac_rejected demoValidator demoTokenHmac (Or.inl rfl)⟩

/-! ## C4: no room key with an empty member set -/

/-- Every room bucket of the index is non-empty (the invariant of the claim:
a room whose member set becomes empty is deleted from R). -/
def roomsWF (s : MgrState) : Bool :=
  s.rooms.all (fun p => !p.2.isEmpty)

theorem astore_all {α : Type} (l : List (String × α)) (k : String) (v : α)
    (P : String × α → Bool) (hl : l.all P) (hv : P (k, v)) :
    (astore l k v).all P := by
  induction l with
  | nil => simp [astore, hv]
  | cons p t ih =>
    obtain ⟨k₀, v₀⟩ := p
    simp only [List.all_cons, Bool.and_eq_true] at hl
    by_cases h0 : k₀ = k
    · simp [astore, h0, hv, hl.2]
    · simp [astore, h0, hl.1, ih hl.2]

theorem adelete_all {α : Type} (l : List (String × α)) (k : String)
    (P : String × α → Bool) (hl : l.all P) :
    (adelete l k).all P := by
  induction l with
  | nil => simp [adelete]
  | cons p t ih =>
    obtain ⟨k₀, v₀⟩ := p
    simp only [List.all_cons, Bool.and_eq_true] at hl
    by_cases h0 : k₀ = k
    · simp [adelete, h0, ih hl.2]
    · simp [adelete, h0, hl.1, ih hl.2]

theorem bucketAdd_ne_nil (b : List String) (cid : String) :
    (bucketAdd b cid).isEmpty = false := by
  unfold bucketAdd
  by_cases h : cid ∈ b
  · simp [h]
    cases b with
    | nil => simp at h
    | cons a t => simp
  · simp [h]

theorem roomsWF_addToRoom (s : MgrState) (roomID cid : String)
    (h : roomsWF s = true) : roomsWF (addToRoom s roomID cid) = true := by
  unfold addToRoom
  cases hb : alookup s.rooms roomID with
  | none =>
    exact astore_all _ _ _ _ h (by simp)
  | some b =>
    exact astore_all _ _ _ _ h (by simp [bucketAdd_ne_nil])

theorem roomsWF_removeFromRoom (s : MgrState) (roomID cid : String)
    (h : roomsWF s = true) : roomsWF (removeFromRoom s roomID cid) = true := by
  unfold removeFromRoom
  cases hb : alookup s.rooms roomID with
  | none => exact h
  | some b =>
    by_cases he : (b.erase cid).isEmpty
    · simp only [he, if_true]
      exact adelete_all _ _ _ h
    · simp only [he, if_false]
      exact astore_all _ _ _ _ h (by simp [he])

theorem roomsWF_foldl_addToRoom (l : List String) (s : MgrState) (cid : String)
    (h : roomsWF s = true) :
    roomsWF (l.foldl (fun st x => addToRoom st x cid) s) = true := by
  induction l generalizing s with
  | nil => exact h
  | cons a t ih => exact ih _ (roomsWF_addToRoom _ _ _ h)

theorem roomsWF_foldl_removeFromRoom (l : List String) (s : MgrState) (cid : String)
    (h : roomsWF s = true) :
    roomsWF (l.foldl (fun st x => removeFromRoom st x cid) s) = true := by
  induction l generalizing s with
  | nil => exact h
  | cons a t ih => exact ih _ (roomsWF_removeFromRoom _ _ _ h)

theorem roomsWF_rooms_congr (s s' : MgrState) (hr : s'.rooms = s.rooms)
    (h : roomsWF s = true) : roomsWF s' = true := by
  unfold roomsWF at h ⊢
  rw [hr]
  exact h

/-- C4: every admitted manager operation — add, remove, join, leave —
preserves the invariant that every key of the room map has at least one
member: a room whose member set becomes empty is deleted from R. -/
theorem C4_no_empty_room_keys (s : MgrState) (c : Conn) (cid roomID : String)
    (h : roomsWF s = true) :
    roomsWF (addConnection s c) = true ∧
    roomsWF (removeConnection s cid) = true ∧
    roomsWF (joinRoomM s cid roomID) = true ∧
    roomsWF (leaveRoomM s cid roomID) = true := by
  refine ⟨?_, ?_, ?_, ?_⟩
  · unfold addConnection
    cases h3 : alookup s.users c.userID with
    | none =>
      simp only [h3]
      exact roomsWF_rooms_congr _ _ rfl
        (roomsWF_foldl_addToRoom c.rooms _ c.id (roomsWF_rooms_congr s _ rfl h))
    | some b =>
      simp only [h3]
      exact roomsWF_rooms_congr _ _ rfl
        (roomsWF_foldl_addToRoom c.rooms _ c.id (roomsWF_rooms_congr s _ rfl h))
  · unfold removeConnection
    cases h3 : alookup s.conns cid with
    | none => exact h
    | some c0 =>
      have h1 := roomsWF_foldl_removeFromRoom c0.rooms s cid h
      cases h4 : alookup
          ((c0.rooms.foldl (fun st r => removeFromRoom st r cid) s)).users c0.userID with
      | none =>
        simp only [h4]
        exact roomsWF_rooms_congr _ _ rfl h1
      | some b =>
        simp only [h4]
        exact roomsWF_rooms_congr _ _ rfl h1
  · unfold joinRoomM
    cases h3 : alookup s.conns cid with
    | none => exact h
    | some c0 =>
      exact roomsWF_addToRoom _ _ _ (roomsWF_rooms_congr s _ rfl h)
  · unfold leaveRoomM
    cases h3 : alookup s.conns cid with
    | none => exact h
    | some c0 =>
      exact roomsWF_removeFromRoom _ _ _ (roomsWF_rooms_congr s _ rfl h)

/-- Zeroed metrics for the concrete states below. -/
def metricsZero : Metrics :=
  { connectionsTotal := 0, connectionsCurrent := 0, roomsTotal := 0
    messagesReceived := 0, messagesSent := 0, messagesFromNATS := 0
    authSuccess := 0, authFailure := 0 }

/-- The empty manager, as NewManager returns it. -/
def emptyState : MgrState :=
  { totalConnections := 0, totalRooms := 0, conns := [], rooms := []
    users := [], metrics := metricsZero }

/-- A registered demo connection sitting in room chat:7. -/
def demoConnA : Conn :=
  { id := "cA", userID := "u42", brandID := "b1", role := "agent", utype := "cskh"
    device := "", tags := "", timezone := "", channel := ""
    rooms := ["user:u42", "chat:7"], closed := false, sendq := [] }

/-- A second demo connection of the same user, also in chat:7. -/
def demoConnB : Conn :=
  { id := "cB", userID := "u42", brandID := "b1", role := "agent", utype := "cskh"
    device := "", tags := "", timezone := "", channel := ""
    rooms := ["user:u42", "chat:7"], closed := false, sendq := [] }

/-- A manager state holding the two demo connections. -/
def demoState : MgrState :=
  { totalConnections := 2, totalRooms := 2
    conns := [("cA", demoConnA), ("cB", demoConnB)]
    rooms := [("user:u42", ["cA", "cB"]), ("chat:7", ["cA", "cB"])]
    users := [("u42", ["cA", "cB"])]
    metrics := metricsZero }

/-- A connection whose outbound queue already holds the full 256 frames. -/
def connFull : Conn :=
  { id := "c1", userID := "u1", brandID := "", role := "", utype := "customer"
    device := "", tags := "", timezone := "", channel := ""
    rooms := ["user:u1"], closed := false
    sendq := List.replicate sendCapacity (Frame.raw ("m")) }

/-- A manager state registering the full-queue connection in all three maps. -/
def stateFull : MgrState :=
  { totalConnections := 1, totalRooms := 1
    conns := [("c1", connFull)]
    rooms := [("user:u1", ["c1"])]
    users := [("u1", ["c1"])]
    metrics := metricsZero }

set_option maxRecDepth 100000 in
/-- C1 counterexample: on the capacity-256 queue already holding 256 frames,
the next enqueue leaves the connection byte-identical (the frame is dropped)
and returns the nil error; broadcasting the frame to the connection's room
leaves it registered with queue unchanged, and the only counter that moves is
messages-sent — which moves by exactly the same amount for the non-full
connection demoConnA receiving the frame for real.  No counter distinguishes
the drop, so no slow-consumer metric is incremented: metrics.go defines no
such collector and Connection.Send only logs a warning. -/
theorem C1_counterexample :
    connFull.sendq.length = sendCapacity ∧
    connFull.send (Frame.raw ("x")) = (connFull, none) ∧
    (broadcastToRoom stateFull ("user:u1") (Frame.raw ("x")) ("")).1.conns =
      [("c1", connFull)] ∧
    (broadcastToRoom stateFull ("user:u1") (Frame.raw ("x")) ("")).1.metrics =
      { metricsZero with messagesSent := 1 } ∧
    (broadcastToRoom demoState ("chat:7") (Frame.raw ("x")) ("cB")).1.metrics =
      { metricsZero with messagesSent := 1 } := by
  refine ⟨?_, ?_, ?_, ?_, ?_⟩ <;> rfl

/-- C1 amended: the (N+1)th enqueue on a capacity-N queue drops the frame
without blocking and returns the nil error with the queue unchanged; the
connection remains registered in the manager's maps (broadcast never changes
which conn_ids are present); and the metrics change only in the messages-sent
counter, by the broadcast's accepted count — there is no slow-consumer metric
to increment, the drop is only logged. -/
theorem C1_full_queue_drop_amended (c : Conn) (f : Frame) (s : MgrState)
    (roomID ex cid : String)
    (hclosed : c.closed = false) (hfull : c.sendq.length = sendCapacity) :
    c.send f = (c, none) ∧
    (alookup (broadcastToRoom s roomID f ex).1.conns cid).isSome =
      (alookup s.conns cid).isSome ∧
    (broadcastToRoom s roomID f ex).1.metrics =
      { s.metrics with
        messagesSent :=
          s.metrics.messagesSent + Int.ofNat (broadcastToRoom s roomID f ex).2 } := by
  refine ⟨?_, broadcastToRoom_conns_isSome s roomID f ex cid,
    broadcastToRoom_metrics s roomID f ex⟩
  unfold Conn.send
  simp [hclosed, hfull]

set_option maxRecDepth 100000 in
theorem C1_full_queue_drop_witness :
    connFull.closed = false ∧ connFull.sendq.length = sendCapacity ∧
    (connFull.send (Frame.raw ("x")) = (connFull, none) ∧
      (alookup (broadcastToRoom stateFull ("user:u1") (Frame.raw ("x")) ("")).1.conns
          ("c1")).isSome = (alookup stateFull.conns ("c1")).isSome ∧
      (broadcastToRoom stateFull ("user:u1") (Frame.raw ("x")) ("")).1.metrics =
        { stateFull.metrics with
          messagesSent := stateFull.metrics.messagesSent +
            Int.ofNat (broadcastToRoom stateFull ("user:u1") (Frame.raw ("x")) ("")).2 }) :=
  ⟨rfl, rfl, C1_full_queue_drop_amended connFull (Frame.raw ("x")) stateFull
    ("user:u1") ("") ("c1") rfl rfl⟩

/-- C10: BroadcastToRoom over a room present in the index returns exactly the
number of members whose conn_id differs from the excluded id — members with a
full queue or a closed connection are still counted, because Send always
returns the nil error; BroadcastToUser returns the same count over the user's
connections.  The presence hypothesis says every bucket member is a
registered id, which is how the Go buckets (holding live pointers) always
behave. -/
theorem C10_broadcast_counts :
    (∀ (s : MgrState) (roomID : String) (f : Frame) (ex : String) (bucket : List String),
      alookup s.rooms roomID = some bucket →
      (∀ cid ∈ bucket, (alookup s.conns cid).isSome = true) →
      (broadcastToRoom s roomID f ex).2 = (bucket.filter (fun cid => cid != ex)).length) ∧
    (∀ (s : MgrState) (userID : String) (f : Frame) (ex : String),
      (∀ cid ∈ getUserConnIDs s userID, (alookup s.conns cid).isSome = true) →
      (broadcastToUser s userID f ex).2 =
        ((getUserConnIDs s userID).filter (fun cid => cid != ex)).length) := by
  constructor
  · intro s roomID f ex bucket hb hpres
    unfold broadcastToRoom
    rw [hb]
    simp only []
    rw [foldl_sendStep_count]
    have hfc : bucket.filter (fun cid => cid != ex && (alookup s.conns cid).isSome) =
        bucket.filter (fun cid => cid != ex) :=
      List.filter_congr (fun cid hcid => by simp [hpres cid hcid])
    rw [hfc]
    omega
  · intro s userID f ex hpres
    unfold broadcastToUser
    simp only []
    rw [foldl_sendStep_count]
    have hfc : (getUserConnIDs s userID).filter
          (fun cid => cid != ex && (alookup s.conns cid).isSome) =
        (getUserConnIDs s userID).filter (fun cid => cid != ex) :=
      List.filter_congr (fun cid hcid => by simp [hpres cid hcid])
    rw [hfc]
    omega

theorem C10_broadcast_counts_witness :
    (alookup demoState.rooms ("chat:7") = some ["cA", "cB"] ∧
      (broadcastToRoom demoState ("chat:7") (Frame.raw ("hi")) ("cB")).2 =
        ((["cA", "cB"] : List String).filter (fun cid => cid != "cB")).length) ∧
    ((broadcastToUser demoState ("u42") (Frame.raw ("hi")) ("cB")).2 =
      ((getUserConnIDs demoState ("u42")).filter (fun cid => cid != "cB")).length) :=
  ⟨⟨by decide,
    C10_broadcast_counts.1 demoState ("chat:7") (Frame.raw ("hi")) ("cB") ["cA", "cB"]
      (by decide) (by decide)⟩,
    C10_broadcast_counts.2 demoState ("u42") (Frame.raw ("hi")) ("cB") (by decide)⟩

/-! ## Characterization of RemoveConnection, and C2 -/

theorem removeConnection_conns_lookup (s : MgrState) (cid : String) (c : Conn)
    (h : alookup s.conns cid = some c) (k : String) :
    alookup (removeConnection s cid).conns k =
      if k = cid then none else alookup s.conns k := by
  unfold removeConnection
  simp only [h, foldl_removeFromRoom_users]
  cases h4 : alookup s.users c.userID with
  | none =>
    by_cases hk : k = cid
    · subst hk
      simp [h4, foldl_removeFromRoom_conns, alookup_adelete_self]
    · simp [h4, foldl_removeFromRoom_conns, hk, alookup_adelete_ne _ hk]
  | some b =>
    by_cases hk : k = cid
    · subst hk
      simp [h4, foldl_removeFromRoom_conns, alookup_adelete_self]
    · simp [h4, foldl_removeFromRoom_conns, hk, alookup_adelete_ne _ hk]

theorem removeConnection_rooms_lookup (s : MgrState) (cid : String) (c : Conn)
    (h : alookup s.conns cid = some c) (hnd : c.rooms.Nodup) (r : String) :
    alookup (removeConnection s cid).rooms r =
      if r ∈ c.rooms then bucketRemove (alookup s.rooms r) cid
      else alookup s.rooms r := by
  unfold removeConnection
  simp only [h, foldl_removeFromRoom_users]
  cases h4 : alookup s.users c.userID with
  | none => simp [h4, foldl_removeFromRoom_rooms_lookup _ hnd]
  | some b => simp [h4, foldl_removeFromRoom_rooms_lookup _ hnd]

theorem removeConnection_users_lookup (s : MgrState) (cid : String) (c : Conn)
    (h : alookup s.conns cid = some c) (u : String) :
    alookup (removeConnection s cid).users u =
      if u = c.userID then (alookup s.users c.userID).map (fun b => b.erase cid)
      else alookup s.users u := by
  unfold removeConnection
  simp only [h, foldl_removeFromRoom_users]
  cases h4 : alookup s.users c.userID with
  | none =>
    by_cases huc : u = c.userID
    · subst huc
      simp [h4, foldl_removeFromRoom_users]
    · simp [h4, huc, foldl_removeFromRoom_users]
  | some b =>
    by_cases huc : u = c.userID
    · subst huc
      simp [h4, foldl_removeFromRoom_users, alookup_astore_self]
    · simp [h4, huc, foldl_removeFromRoom_users, alookup_astore_ne _ _ huc]

theorem erase_append_singleton (b : List String) (x : String) (h : x ∉ b) :
    (b ++ [x]).erase x = b := by
  induction b with
  | nil => simp
  | cons a t ih =>
    simp only [List.mem_cons, not_or] at h
    have hax : ¬a = x := fun hh => h.1 hh.symm
    simp only [List.cons_append, List.erase_cons]
    simp [hax, ih h.2]

theorem bucketAdd_erase (b : List String) (cid : String) (h : cid ∉ b) :
    (bucketAdd b cid).erase cid = b := by
  unfold bucketAdd
  simp only [h, if_false]
  exact erase_append_singleton b cid h

/-- Fresh connection used by the C2 counterexample. -/
def connC2 : Conn :=
  { id := "c1", userID := "u1", brandID := "", role := "", utype := "customer"
    device := "", tags := "", timezone := "", channel := ""
    rooms := ["user:u1"], closed := false, sendq := [] }

/-- C2 counterexample: on the empty manager, add(connC2) followed by
remove("c1") does not return the user map to its pre-state: the pre-state has
no key u1, the post-state maps u1 to the empty bucket, because
RemoveConnection deletes the conn_id from the inner user bucket but never
deletes the bucket itself (manager.go lines 74-77). -/
theorem C2_counterexample :
    alookup emptyState.users ("u1") = none ∧
    alookup (removeConnection (addConnection emptyState connC2) ("c1")).users ("u1") =
      some [] := by
  refine ⟨rfl, rfl⟩

/-- C2 amended: for a not-yet-registered connection (its id absent from the
connection map and from every room and user bucket, room buckets non-empty),
add(c) followed by remove(c.id) returns the connection map and the room map
exactly to their pre-state, and the user map to its pre-state at every user
except c.userID, where the bucket holds its pre-state members but exists even
when it did not before (an empty leftover bucket). -/
theorem C2_add_remove_restores (s : MgrState) (c : Conn)
    (hfresh : alookup s.conns c.id = none)
    (hnd : c.rooms.Nodup)
    (hrooms : ∀ r b, alookup s.rooms r = some b → c.id ∉ b ∧ b ≠ [])
    (husers : ∀ u b, alookup s.users u = some b → c.id ∉ b) :
    (∀ k, alookup (removeConnection (addConnection s c) c.id).conns k =
      alookup s.conns k) ∧
    (∀ r, alookup (removeConnection (addConnection s c) c.id).rooms r =
      alookup s.rooms r) ∧
    (∀ u, u ≠ c.userID →
      alookup (removeConnection (addConnection s c) c.id).users u = alookup s.users u) ∧
    alookup (removeConnection (addConnection s c) c.id).users c.userID =
      some ((alookup s.users c.userID).getD []) := by
  have hAc : alookup (addConnection s c).conns c.id = some c := by
    rw [addConnection_conns_lookup]
    simp
  refine ⟨?_, ?_, ?_, ?_⟩
  · intro k
    rw [removeConnection_conns_lookup _ _ _ hAc]
    by_cases hk : k = c.id
    · subst hk
      simp [hfresh]
    · rw [addConnection_conns_lookup]
      simp [hk]
  · intro r
    rw [removeConnection_rooms_lookup _ _ _ hAc hnd]
    by_cases hr : r ∈ c.rooms
    · rw [addConnection_rooms_lookup _ _ hnd]
      simp only [hr, if_true]
      cases h5 : alookup s.rooms r with
      | none =>
        simp [bucketAdd, bucketRemove, List.erase_cons]
      | some b =>
        obtain ⟨hno, hne⟩ := hrooms r b h5
        simp only [Option.getD_some, bucketRemove]
        rw [bucketAdd_erase b c.id hno]
        cases b with
        | nil => exact absurd rfl hne
        | cons x t => simp
    · rw [addConnection_rooms_lookup _ _ hnd]
      simp [hr]
  · intro u hu
    rw [removeConnection_users_lookup _ _ _ hAc]
    simp only [hu, if_false]
    rw [addConnection_users_lookup]
    simp [hu]
  · rw [removeConnection_users_lookup _ _ _ hAc]
    rw [addConnection_users_lookup]
    simp only [if_true, if_pos rfl, Option.map_some]
    cases h5 : alookup s.users c.userID with
    | none =>
      simp [bucketAdd, List.erase_cons]
    | some b =>
      have hno := husers _ _ h5
      simp [bucketAdd_erase b c.id hno]

theorem C2_add_remove_restores_witness :
    (alookup demoState.conns connC2.id = none ∧ connC2.rooms.Nodup) ∧
    ((∀ k, alookup (removeConnection (addConnection demoState connC2) connC2.id).conns k =
        alookup demoState.conns k) ∧
     (∀ r, alookup (removeConnection (addConnection demoState connC2) connC2.id).rooms r =
        alookup demoState.rooms r) ∧
     (∀ u, u ≠ connC2.userID →
        alookup (removeConnection (addConnection demoState connC2) connC2.id).users u =
          alookup demoState.users u) ∧
     alookup (removeConnection (addConnection demoState connC2) connC2.id).users
        connC2.userID = some ((alookup demoState.users connC2.userID).getD [])) :=
  ⟨⟨rfl, by decide⟩,
    C2_add_remove_restores demoState connC2 rfl (by decide)
      (by
        intro r b hb
        unfold demoState at hb
        simp only [alookup] at hb
        by_cases h1 : "user:u42" = r
        · simp [h1] at hb
          subst hb
          decide
        · simp [h1] at hb
          by_cases h2 : "chat:7" = r
          · simp [h2] at hb
            subst hb
            decide
          · simp [h2] at hb)
      (by
        intro u b hb
        unfold demoState at hb
        simp only [alookup] at hb
        by_cases h1 : "u42" = u
        · simp [h1] at hb
          subst hb
          decide
        · simp [h1] at hb)⟩

/-! ## C3: join then leave -/

/-- Connection already a member of room r, for the C3 counterexample. -/
def connC3 : Conn :=
  { id := "c1", userID := "u1", brandID := "", role := "", utype := "customer"
    device := "", tags := "", timezone := "", channel := ""
    rooms := ["r"], closed := false, sendq := [] }

/-- Manager state where connC3 is registered and already in room r. -/
def stateC3 : MgrState :=
  { totalConnections := 1, totalRooms := 1
    conns := [("c1", connC3)]
    rooms := [("r", ["c1"])]
    users := [("u1", ["c1"])]
    metrics := metricsZero }

/-- C3 counterexample: when the registered connection is already a member of
room r, join(c,r) is idempotent but leave(c,r) then removes the pre-existing
membership: the room key disappears from R and the connection's room set
drops r, so neither is identical to its pre-state. -/
theorem C3_counterexample :
    alookup stateC3.rooms ("r") = some ["c1"] ∧
    connC3.rooms = ["r"] ∧
    alookup (leaveRoomM (joinRoomM stateC3 ("c1") ("r")) ("c1") ("r")).rooms ("r") =
      none ∧
    (alookup (leaveRoomM (joinRoomM stateC3 ("c1") ("r")) ("c1") ("r")).conns
        ("c1")).map Conn.rooms = some [] := by
  refine ⟨rfl, rfl, rfl, rfl⟩

/-- C3 amended: join(c,r) followed by leave(c,r) leaves the room map and the
connection's room set (and the whole connection map and user map) identical
to their pre-state, provided the connection is registered and not already a
member of r — neither in its own room set nor in the room's bucket, and the
bucket, when present, is non-empty. -/
theorem C3_join_leave_restores (s : MgrState) (cid roomID : String) (c : Conn)
    (h : alookup s.conns cid = some c)
    (hnotin : roomID ∉ c.rooms)
    (hbucket : ∀ b, alookup s.rooms roomID = some b → cid ∉ b ∧ b ≠ []) :
    (leaveRoomM (joinRoomM s cid roomID) cid roomID).conns = s.conns ∧
    (∀ r, alookup (leaveRoomM (joinRoomM s cid roomID) cid roomID).rooms r =
      alookup s.rooms r) ∧
    (leaveRoomM (joinRoomM s cid roomID) cid roomID).users = s.users := by
  have hback : (c.joinRoom roomID).leaveRoom roomID = c := by
    unfold Conn.joinRoom Conn.leaveRoom
    simp only [hnotin, if_false]
    simp [erase_append_singleton _ _ hnotin]
  have hJ : joinRoomM s cid roomID =
      addToRoom { s with conns := astore s.conns cid (c.joinRoom roomID) } roomID cid := by
    unfold joinRoomM
    rw [h]
  have hJconns : (joinRoomM s cid roomID).conns = astore s.conns cid (c.joinRoom roomID) := by
    rw [hJ, addToRoom_conns]
  have hJusers : (joinRoomM s cid roomID).users = s.users := by
    rw [hJ, addToRoom_users]
  have hJc : alookup (joinRoomM s cid roomID).conns cid = some (c.joinRoom roomID) := by
    rw [hJconns]
    exact alookup_astore_self _ _ _
  have hL : leaveRoomM (joinRoomM s cid roomID) cid roomID =
      removeFromRoom
        { joinRoomM s cid roomID with
          conns := astore (joinRoomM s cid roomID).conns cid
            ((c.joinRoom roomID).leaveRoom roomID) } roomID cid := by
    unfold leaveRoomM
    rw [hJc]
  refine ⟨?_, ?_, ?_⟩
  · rw [hL, removeFromRoom_conns]
    simp only [hback, hJconns]
    rw [astore_astore, astore_self _ _ _ h]
  · intro r
    rw [hL, removeFromRoom_rooms_lookup]
    have hrooms2 : ({ joinRoomM s cid roomID with
        conns := astore (joinRoomM s cid roomID).conns cid
          ((c.joinRoom roomID).leaveRoom roomID) } : MgrState).rooms =
        (joinRoomM s cid roomID).rooms := rfl
    by_cases hr : r = roomID
    · subst hr
      rw [if_pos rfl, hrooms2, hJ, addToRoom_rooms_lookup, if_pos rfl]
      cases h5 : alookup s.rooms r with
      | none =>
        simp [bucketAdd, bucketRemove, List.erase_cons]
      | some b =>
        obtain ⟨hno, hne⟩ := hbucket b h5
        simp only [Option.getD_some, bucketRemove]
        rw [bucketAdd_erase b cid hno]
        cases b with
        | nil => exact absurd rfl hne
        | cons x t => simp
    · simp only [hr, if_false, hrooms2]
      rw [hJ, addToRoom_rooms_lookup]
      simp [hr]
  · rw [hL, removeFromRoom_users]
    simp only []
    exact hJusers

theorem C3_join_leave_restores_witness :
    (alookup demoState.conns ("cA") = some demoConnA ∧ "chat:9" ∉ demoConnA.rooms) ∧
    ((leaveRoomM (joinRoomM demoState ("cA") ("chat:9")) ("cA") ("chat:9")).conns =
        demoState.conns ∧
     (∀ r, alookup (leaveRoomM (joinRoomM demoState ("cA") ("chat:9")) ("cA")
        ("chat:9")).rooms r = alookup demoState.rooms r) ∧
     (leaveRoomM (joinRoomM demoState ("cA") ("chat:9")) ("cA") ("chat:9")).users =
        demoState.users) :=
  ⟨⟨rfl, by decide⟩,
    C3_join_leave_restores demoState ("cA") ("chat:9") demoConnA rfl (by decide)
      (by
        intro b hb
        simp [demoState, alookup] at hb)⟩

/-! ## C8: typing frames -/

/-- C8: a client frame of type typing with a non-empty room publishes nothing
to the bus; the typing frame — carrying the room, the sender's user_id and
type, and the timestamp — is offered by enqueue to every member of the room
except the sending connection (each member's connection becomes exactly the
result of Send on it); the sender's connection is untouched, as is every
connection outside the room bucket. -/
theorem C8_typing_broadcast (s : MgrState) (sender : Conn) (msg : ClientMessage)
    (now : Nat) (bucket : List String)
    (ht : msg.ctype = "typing") (hr : msg.room ≠ "")
    (hb : alookup s.rooms msg.room = some bucket) (hnd : bucket.Nodup) :
    (handleClientMessage s sender msg now).2 = [] ∧
    (∀ (cid : String) (c : Conn), cid ∈ bucket → cid ≠ sender.id →
      alookup s.conns cid = some c →
      alookup (handleClientMessage s sender msg now).1.conns cid =
        some (c.send (Frame.typing msg.room sender.userID sender.utype now)).1) ∧
    alookup (handleClientMessage s sender msg now).1.conns sender.id =
      alookup s.conns sender.id ∧
    (∀ cid : String, cid ∉ bucket →
      alookup (handleClientMessage s sender msg now).1.conns cid =
        alookup s.conns cid) := by
  have hmain : handleClientMessage s sender msg now =
      ((broadcastToRoom s msg.room
        (Frame.typing msg.room sender.userID sender.utype now) sender.id).1, []) := by
    unfold handleClientMessage
    rw [ht]
    simp [hr]
  have hcn : ∀ cid : String,
      alookup (handleClientMessage s sender msg now).1.conns cid =
        if cid ∈ bucket ∧ cid ≠ sender.id then
          (alookup s.conns cid).map
            (fun c => (c.send (Frame.typing msg.room sender.userID sender.utype now)).1)
        else alookup s.conns cid := by
    intro cid
    rw [hmain]
    unfold broadcastToRoom
    rw [hb]
    simp only []
    exact foldl_sendStep_lookup bucket hnd s.conns 0 sender.id _ cid
  refine ⟨by rw [hmain], ?_, ?_, ?_⟩
  · intro cid c hmem hne hc
    rw [hcn cid]
    simp [hmem, hne, hc]
  · rw [hcn sender.id]
    simp
  · intro cid hmem
    rw [hcn cid]
    simp [hmem]

/-- Typing frame from demoConnB into chat:7, for the C8 witness. -/
def demoTypingMsg : ClientMessage :=
  { ctype := "typing", room := "chat:7", payload := "" }

theorem C8_typing_broadcast_witness :
    (demoTypingMsg.ctype = "typing" ∧ demoTypingMsg.room ≠ "" ∧
      alookup demoState.rooms demoTypingMsg.room = some ["cA", "cB"] ∧
      (["cA", "cB"] : List String).Nodup) ∧
    ((handleClientMessage demoState demoConnB demoTypingMsg 5).2 = [] ∧
     (∀ (cid : String) (c : Conn), cid ∈ (["cA", "cB"] : List String) →
        cid ≠ demoConnB.id → alookup demoState.conns cid = some c →
        alookup (handleClientMessage demoState demoConnB demoTypingMsg 5).1.conns cid =
          some (c.send (Frame.typing demoTypingMsg.room demoConnB.userID
            demoConnB.utype 5)).1) ∧
     alookup (handleClientMessage demoState demoConnB demoTypingMsg 5).1.conns
        demoConnB.id = alookup demoState.conns demoConnB.id ∧
     (∀ cid : String, cid ∉ (["cA", "cB"] : List String) →
        alookup (handleClientMessage demoState demoConnB demoTypingMsg 5).1.conns cid =
          alookup demoState.conns cid)) :=
  ⟨⟨rfl, by decide, rfl, by decide⟩,
    C8_typing_broadcast demoState demoConnB demoTypingMsg 5 ["cA", "cB"]
      rfl (by decide) rfl (by decide)⟩

/-! ## C9: rooms after attach -/

theorem Conn.joinRoom_id (c : Conn) (r : String) : (c.joinRoom r).id = c.id := by
  unfold Conn.joinRoom
  by_cases h : r ∈ c.rooms <;> simp [h]

theorem newConnection_id (cid uid bid rol ty : String) :
    (newConnection cid uid bid rol ty).id = cid := by
  unfold newConnection joinDefaultRooms
  by_cases hb : bid ≠ "" <;> by_cases ht : ty = "cskh" <;>
    simp [hb, ht, Conn.joinRoom_id]

theorem joinRoomM_conns_lookup (s : MgrState) (cid roomID k : String) :
    alookup (joinRoomM s cid roomID).conns k =
      if k = cid then (alookup s.conns cid).map (fun c => c.joinRoom roomID)
      else alookup s.conns k := by
  unfold joinRoomM
  cases h : alookup s.conns cid with
  | none =>
    by_cases hk : k = cid
    · subst hk
      simp [h]
    · simp [hk]
  | some c =>
    rw [addToRoom_conns]
    by_cases hk : k = cid
    · subst hk
      simp [h, alookup_astore_self]
    · simp [hk, alookup_astore_ne _ _ hk]

theorem foldl_joinRoomM_conns_lookup (l : List String) (s : MgrState) (cid : String) :
    alookup ((l.foldl (fun st r => joinRoomM st cid r) s)).conns cid =
      (alookup s.conns cid).map (fun c => l.foldl Conn.joinRoom c) := by
  induction l generalizing s with
  | nil => simp
  | cons a t ih =>
    rw [List.foldl_cons, ih, joinRoomM_conns_lookup]
    simp only [if_pos rfl]
    cases alookup s.conns cid <;> simp

theorem mem_foldl_joinRoom (l : List String) (c : Conn) (r : String) :
    r ∈ (l.foldl Conn.joinRoom c).rooms ↔ r ∈ c.rooms ∨ r ∈ l := by
  induction l generalizing c with
  | nil => simp
  | cons a t ih =>
    rw [List.foldl_cons]
    rw [ih, Conn.mem_joinRoom]
    simp only [List.mem_cons]
    tauto

theorem mem_newConnection_rooms (cid uid bid rol ty r : String) :
    r ∈ (newConnection cid uid bid rol ty).rooms ↔
      (r = "user:" ++ uid ∨
       (bid ≠ "" ∧ r = "brand:" ++ bid) ∨
       (ty = "cskh" ∧
         (r = "folder:" ++ bid ++ ":all" ∨ r = "folder:" ++ bid ++ ":waiting" ∨
          r = "folder:" ++ bid ++ ":active"))) := by
  unfold newConnection joinDefaultRooms
  by_cases hb : bid ≠ "" <;> by_cases ht : ty = "cskh" <;>
    simp [hb, ht, Conn.mem_joinRoom] <;> tauto

set_option maxHeartbeats 1000000 in
/-- C9: after the attach sequence of a successfully authenticated session,
the connection registered under the fresh conn_id has exactly these rooms:
user:{user_id} always; brand:{brand_id} exactly when the resolved brand_id is
non-empty; the three folder rooms exactly when the resolved type is cskh;
every room listed in claims.rooms; and the upgrade-time room_id exactly when
it is non-empty — and no other rooms (identity fields resolved claims-over-
query as handleWebSocket does). -/
theorem C9_attach_rooms (s : MgrState) (connID : String) (claims : Claims)
    (qU qB qR qT roomID : String)
    (_hfresh : alookup s.conns connID = none) :
    ∃ c : Conn,
      alookup (attach s connID claims qU qB qR qT roomID).conns connID = some c ∧
      ∀ r : String, r ∈ c.rooms ↔
        (r = "user:" ++ resolvedUserID claims qU ∨
         (resolvedBrandID claims qB ≠ "" ∧ r = "brand:" ++ resolvedBrandID claims qB) ∨
         (resolvedUserType claims qT = "cskh" ∧
           (r = "folder:" ++ resolvedBrandID claims qB ++ ":all" ∨
            r = "folder:" ++ resolvedBrandID claims qB ++ ":waiting" ∨
            r = "folder:" ++ resolvedBrandID claims qB ++ ":active")) ∨
         r ∈ claims.croomsList ∨
         (roomID ≠ "" ∧ r = roomID)) := by
  have hid : (newConnection connID (resolvedUserID claims qU) (resolvedBrandID claims qB)
      (resolvedRole claims qR) (resolvedUserType claims qT)).id = connID :=
    newConnection_id _ _ _ _ _
  have h1 : alookup (addConnection s (newConnection connID (resolvedUserID claims qU)
      (resolvedBrandID claims qB) (resolvedRole claims qR)
      (resolvedUserType claims qT))).conns connID =
      some (newConnection connID (resolvedUserID claims qU) (resolvedBrandID claims qB)
        (resolvedRole claims qR) (resolvedUserType claims qT)) := by
    rw [addConnection_conns_lookup, hid]
    simp
  have h2 : alookup ((if roomID ≠ "" then
        joinRoomM (addConnection s (newConnection connID (resolvedUserID claims qU)
          (resolvedBrandID claims qB) (resolvedRole claims qR)
          (resolvedUserType claims qT))) connID roomID
      else addConnection s (newConnection connID (resolvedUserID claims qU)
        (resolvedBrandID claims qB) (resolvedRole claims qR)
        (resolvedUserType claims qT)))).conns connID =
      some (if roomID ≠ "" then
        (newConnection connID (resolvedUserID claims qU) (resolvedBrandID claims qB)
          (resolvedRole claims qR) (resolvedUserType claims qT)).joinRoom roomID
      else newConnection connID (resolvedUserID claims qU) (resolvedBrandID claims qB)
        (resolvedRole claims qR) (resolvedUserType claims qT)) := by
    by_cases hrid : roomID ≠ ""
    · rw [if_pos hrid, if_pos hrid]
      rw [joinRoomM_conns_lookup]
      simp [h1]
    · rw [if_neg hrid, if_neg hrid]
      exact h1
  have hfinal : alookup (attach s connID claims qU qB qR qT roomID).conns connID =
      some (claims.croomsList.foldl Conn.joinRoom
        (if roomID ≠ "" then
          (newConnection connID (resolvedUserID claims qU) (resolvedBrandID claims qB)
            (resolvedRole claims qR) (resolvedUserType claims qT)).joinRoom roomID
        else newConnection connID (resolvedUserID claims qU) (resolvedBrandID claims qB)
          (resolvedRole claims qR) (resolvedUserType claims qT))) := by
    simp only [attach]
    rw [foldl_joinRoomM_conns_lookup, h2]
    rfl
  refine ⟨_, hfinal, ?_⟩
  intro r
  rw [mem_foldl_joinRoom]
  by_cases hrid : roomID ≠ ""
  · rw [if_pos hrid, Conn.mem_joinRoom, mem_newConnection_rooms]
    tauto
  · rw [not_ne_iff] at hrid
    subst hrid
    rw [if_neg (by simp : ¬(("" : String) ≠ "")), mem_newConnection_rooms]
    simp only [ne_eq, eq_self_iff_true, not_true, false_and, or_false]
    tauto

/-- Claims of the cskh demo token used by the C9 witness. -/
def demoClaimsC9 : Claims :=
  { userID := 42, username := "agent1", roleID := 3, tokenVersion := 1
    brandID := "b1", role := "agent", croomsList := ["chat:7"], utype := "cskh"
    issuer := "attchat", hasExp := true, expired := false }

theorem C9_attach_rooms_witness :
    alookup emptyState.conns ("k1") = none ∧
    (∃ c : Conn,
      alookup (attach emptyState ("k1") demoClaimsC9 ("") ("") ("") ("")
        ("room9")).conns ("k1") = some c ∧
      ∀ r : String, r ∈ c.rooms ↔
        (r = "user:" ++ resolvedUserID demoClaimsC9 ("") ∨
         (resolvedBrandID demoClaimsC9 ("") ≠ "" ∧
           r = "brand:" ++ resolvedBrandID demoClaimsC9 ("")) ∨
         (resolvedUserType demoClaimsC9 ("") = "cskh" ∧
           (r = "folder:" ++ resolvedBrandID demoClaimsC9 ("") ++ ":all" ∨
            r = "folder:" ++ resolvedBrandID demoClaimsC9 ("") ++ ":waiting" ∨
            r = "folder:" ++ resolvedBrandID demoClaimsC9 ("") ++ ":active")) ∨
         r ∈ demoClaimsC9.croomsList ∨
         (("room9" : String) ≠ "" ∧ r = "room9"))) :=
  ⟨rfl, C9_attach_rooms emptyState ("k1") demoClaimsC9 ("") ("") ("") ("") ("room9") rfl⟩

theorem C4_no_empty_room_keys_witness :
    roomsWF demoState = true ∧
    (roomsWF (addConnection demoState demoConnA) = true ∧
     roomsWF (removeConnection demoState ("cA")) = true ∧
     roomsWF (joinRoomM demoState ("cA") ("chat:7")) = true ∧
     roomsWF (leaveRoomM demoState ("cA") ("chat:7")) = true) :=
  ⟨by decide, C4_no_empty_room_keys demoState demoConnA ("cA") ("chat:7") (by decide)⟩

end AttChat
